import Mathlib

/-!
# devops-demo-app

A shallow embedding of `devops-demo-app/app.js`: the two configuration constants read
from the environment, the three route handlers, the route table and the `listen` call.

`app.js` is written against the Express API (the 4.x line is followed) on the Node
runtime, so the embedding fixes the meaning of the calls it makes:

* `res.status(c).json(v)` hands status `c` and the text `JSON.stringify(v)` to `res.send`
  (`json spaces`, `json replacer` and `json escape` are never set by `app.js`);
* `res.send` gives the body an entity tag, answers a conditional `GET` or `HEAD` request
  it finds fresh with status 304 and no body, and sends no body for `HEAD`; the function
  that makes the entity tag (the `etag fn` setting, by default a digest of the body) is a
  parameter `etagOf` of the model;
* `app.get(path, h)` registers `h` for `GET` (and `HEAD`) requests whose pathname matches
  `path` under the router defaults, which `app.js` never changes: letter case is ignored
  and one trailing slash is optional;
* a request no route handles falls through to the default 404 response;
* `app.listen(port, host, callback)` is the runtime's `server.listen` with the same
  arguments, which reads a string port with `Number`.

Strings are Lean strings, that is sequences of Unicode scalar values; values of
`process.env` are decoded from UTF-8 and are of that kind.
-/

namespace DevopsDemo

/-! ## JavaScript values and the environment -/

/-- The JavaScript values `app.js` computes with: `undefined` (an unset environment
variable), strings, and non-negative safe integers (the literal `5100`). -/
inductive JsValue
  | undefined
  | str (s : String)
  | num (n : Nat)
deriving DecidableEq, Repr

/-- JavaScript truthiness: `undefined`, the empty string and `0` are falsy. -/
def JsValue.truthy : JsValue → Bool
  | .undefined => false
  | .str s => s != ""
  | .num n => n != 0

/-- The operator `a || b`: `a` when it is truthy, else `b`. -/
def jsOr (a b : JsValue) : JsValue :=
  if a.truthy then a else b

/-- The part of `process.env` that `app.js` reads; `none` is a variable that is unset. -/
structure Env where
  PORT : Option String
  APP_VERSION : Option String
deriving DecidableEq, Repr

/-- A property read `process.env.X`. -/
def envGet : Option String → JsValue
  | none => .undefined
  | some s => .str s

/-- Line 4: `const PORT = process.env.PORT || 5100;` -/
def PORT (env : Env) : JsValue :=
  jsOr (envGet env.PORT) (.num 5100)

/-- Line 5: `const VERSION = process.env.APP_VERSION || "v1.0.0";` -/
def VERSION (env : Env) : JsValue :=
  jsOr (envGet env.APP_VERSION) (.str "v1.0.0")

/-- The module-level constants of `app.js`, bound once when the module is loaded and
`const` from then on; the handlers and the `listen` call read them. -/
structure Config where
  PORT : JsValue
  VERSION : JsValue
deriving DecidableEq, Repr

/-- Loading the module in an environment: lines 4 and 5. -/
def startup (env : Env) : Config :=
  ⟨PORT env, VERSION env⟩

/-! ## `JSON.stringify` on the object literals of `app.js` -/

/-- One lowercase hexadecimal digit. -/
def hexDigit (n : Nat) : Char :=
  if n < 10 then Char.ofNat (48 + n) else Char.ofNat (87 + n)

/-- The escape `\uXXXX` of a code unit, four lowercase hexadecimal digits. -/
def unicodeEscape (n : Nat) : List Char :=
  [Char.ofNat 92, 'u', hexDigit (n / 4096 % 16), hexDigit (n / 256 % 16),
    hexDigit (n / 16 % 16), hexDigit (n % 16)]

/-- The text `QuoteJSONString` emits for one code point: the two-character escapes for
backspace, tab, line feed, form feed, carriage return, the double quote and the backslash,
`\u00XX` for the other control characters, the code point itself otherwise. (The escape of
lone surrogates does not arise: a `Char` is a scalar value.) -/
def quoteChar (c : Char) : List Char :=
  if c.toNat = 8 then [Char.ofNat 92, 'b']
  else if c.toNat = 9 then [Char.ofNat 92, 't']
  else if c.toNat = 10 then [Char.ofNat 92, 'n']
  else if c.toNat = 12 then [Char.ofNat 92, 'f']
  else if c.toNat = 13 then [Char.ofNat 92, 'r']
  else if c.toNat = 34 then [Char.ofNat 92, Char.ofNat 34]
  else if c.toNat = 92 then [Char.ofNat 92, Char.ofNat 92]
  else if c.toNat < 32 then unicodeEscape c.toNat
  else [c]

/-- The characters of a string with every one quoted, without the surrounding quotes. -/
def quoteChars : List Char → List Char
  | [] => []
  | c :: cs => quoteChar c ++ quoteChars cs

/-- The abstract operation `QuoteJSONString`: the JSON string literal of `s`. -/
def QuoteJSONString (s : String) : String :=
  ⟨Char.ofNat 34 :: (quoteChars s.data ++ [Char.ofNat 34])⟩

/-- `SerializeJSONProperty` for a property value: `none` for `undefined`, whose property
`JSON.stringify` leaves out. -/
def serializeValue : JsValue → Option String
  | .undefined => none
  | .str s => some (QuoteJSONString s)
  | .num n => some (toString n)

/-- The members `"key":value` of an object, in the order of the literal. -/
def serializeMembers : List (String × JsValue) → List String
  | [] => []
  | (k, v) :: rest =>
    match serializeValue v with
    | none => serializeMembers rest
    | some t => (QuoteJSONString k ++ ":" ++ t) :: serializeMembers rest

/-- The call `JSON.stringify(obj)` on an object literal given as its properties in source
order, with no indentation. -/
def JSON_stringify (obj : List (String × JsValue)) : String :=
  "\x7b" ++ ",".intercalate (serializeMembers obj) ++ "\x7d"

/-! ## Requests, responses and the three handlers -/

/-- An incoming request: method, pathname (the URL without its query string), query
string, and the header fields as `req.headers` holds them, the names in lower case and
each name once. -/
structure Request where
  method : String
  path : String
  query : String
  headers : List (String × String)
deriving DecidableEq, Repr

/-- What the router and the handlers hand over for sending, before `res.send` has looked
at the request.
* `json status body`: a handler called `res.status(status).json(v)`, `body` being
  `JSON.stringify(v)`;
* `allow methods`: the router answers an `OPTIONS` request itself, with status 200 and
  the methods of the matching routes;
* `notFound`: nothing handled the request, the default handler answers 404. -/
inductive Response
  | json (status : Nat) (body : String)
  | allow (methods : List String)
  | notFound
deriving DecidableEq, Repr

/-- The status code handed over. -/
def Response.status : Response → Nat
  | .json status _ => status
  | .allow _ => 200
  | .notFound => 404

/-- The payload a handler handed over. -/
def Response.body? : Response → Option String
  | .json _ body => some body
  | _ => none

/-- A handler `(req, res) => ...` as a step on the state of the module: from the state
and the request to the state it leaves and what it hands over for sending. -/
abbrev Handler :=
  Config → Request → Config × Response

/-- Lines 7-12: the handler registered for `/health`. Its body is one call,
`res.status(200).json(...)`; it assigns to nothing. -/
def healthHandler : Handler := fun st _req =>
  (st, .json 200 (JSON_stringify [("status", .str "OK"), ("service", .str "devops-demo")]))

/-- Lines 14-19: the handler registered for `/version`. Its body is one call,
`res.status(200).json(...)`, which reads the constant `VERSION`; it assigns to nothing. -/
def versionHandler : Handler := fun st _req =>
  (st, .json 200 (JSON_stringify [("service", .str "devops-demo"), ("version", st.VERSION)]))

/-- Lines 21-25: the handler registered for `/error`. Its body is one call,
`res.status(500).json(...)`; it assigns to nothing. -/
def errorHandler : Handler := fun st _req =>
  (st, .json 500 (JSON_stringify [("message", .str "Intentional error for testing")]))

/-! ## The route table -/

/-- The three routes `app.js` registers, all with `app.get`. -/
inductive Route
  | health
  | version
  | error
deriving DecidableEq, Repr

/-- The path a route was registered with. -/
def Route.path : Route → String
  | .health => "/health"
  | .version => "/version"
  | .error => "/error"

/-- The handler a route was registered with. -/
def Route.handler : Route → Handler
  | .health => healthHandler
  | .version => versionHandler
  | .error => errorHandler

/-- The routes in registration order. -/
def routes : List Route :=
  [.health, .version, .error]

/-- Whether a pathname matches a route path of plain characters under the router
defaults: case-insensitive, with an optional trailing slash. -/
def matchPath (route path : String) : Bool :=
  let p := path.data.map Char.toLower
  let r := route.data.map Char.toLower
  p == r || p == r ++ ['/']

/-- Whether a route registered with `app.get` handles a method: `GET`, and `HEAD` which
falls back to the `GET` handler. -/
def handlesMethod (method : String) : Bool :=
  method == "GET" || method == "HEAD"

/-- Adds the methods of a route to the list collected for an `OPTIONS` reply, each once. -/
def appendMethods (options methods : List String) : List String :=
  methods.foldl (fun acc m => if m ∈ acc then acc else acc ++ [m]) options

/-- What the router did with a request. -/
inductive Outcome
  | ran (r : Route)
  | options (methods : List String)
  | unhandled
deriving DecidableEq, Repr

/-- The router's walk over the registered routes: the first route whose path matches and
which handles the method runs its handler (which ends the response); for `OPTIONS` the
methods of the matching routes are collected and answered at the end. -/
def dispatch (req : Request) : List Route → List String → Outcome
  | [], options =>
    if req.method == "OPTIONS" && !options.isEmpty then .options options else .unhandled
  | r :: rest, options =>
    if matchPath r.path req.path then
      if handlesMethod req.method then .ran r
      else if req.method == "OPTIONS" then
        dispatch req rest (appendMethods options ["GET", "HEAD"])
      else dispatch req rest options
    else dispatch req rest options

/-- The router's outcome carried out: the state left and what is handed over for
sending. The router itself assigns to nothing. -/
def respond (st : Config) (req : Request) : Outcome → Config × Response
  | .ran r => r.handler st req
  | .options methods => (st, .allow methods)
  | .unhandled => (st, .notFound)

/-- One request through the router and, when one runs, a handler. -/
def process (st : Config) (req : Request) : Config × Response :=
  respond st req (dispatch req routes [])

/-- What the router and the handlers hand over for a request. -/
def handle (cfg : Config) (req : Request) : Response :=
  (process cfg req).2

/-! ## Sending: entity tags, conditional requests and `HEAD` -/

/-- White space and line terminators of ECMAScript: the characters `String.prototype.trim`
removes, `\s` matches and a numeric string may start and end with. -/
def jsWhiteSpace (c : Char) : Bool :=
  let n := c.toNat
  n == 9 || n == 10 || n == 11 || n == 12 || n == 13 || n == 32 || n == 160 ||
    n == 0x1680 || (0x2000 ≤ n && n ≤ 0x200A) || n == 0x2028 || n == 0x2029 ||
    n == 0x202F || n == 0x205F || n == 0x3000 || n == 0xFEFF

/-- A text without the characters of a class at its two ends. -/
def trimWith (p : Char → Bool) (cs : List Char) : List Char :=
  ((cs.dropWhile p).reverse.dropWhile p).reverse

/-- A header field of a request by its lower-case name, `undefined` being `none`. -/
def Request.header (req : Request) (name : String) : Option String :=
  req.headers.lookup name

/-- Truthiness of a header field: it is there and not empty. -/
def headerSet : Option String → Bool
  | none => false
  | some v => v != ""

/-- The pieces of a text between its commas. -/
def splitAtCommas : List Char → List (List Char)
  | [] => [[]]
  | c :: cs =>
    if c.toNat = 44 then [] :: splitAtCommas cs
    else
      match splitAtCommas cs with
      | [] => [[c]]
      | p :: ps => (c :: p) :: ps

/-- The test of `/(?:^|,)\s*?no-cache\s*?(?:,|$)/` on a `Cache-Control` field: one of
its pieces between commas is `no-cache` with nothing but white space around it. -/
def noCacheDirective (value : String) : Bool :=
  (splitAtCommas value.data).any fun p => trimWith jsWhiteSpace p == "no-cache".data

/-- The tokens of an `If-None-Match` field: its pieces between commas, without the
spaces at their ends. -/
def parseTokenList (value : String) : List String :=
  (splitAtCommas value.data).map fun p => ⟨trimWith (fun c => c.toNat == 32) p⟩

/-- Whether one of the tags of an `If-None-Match` field is the entity tag, weak or
strong alike. -/
def etagMatches (etag noneMatch : String) : Bool :=
  (parseTokenList noneMatch).any fun m =>
    m == etag || m == "W/" ++ etag || "W/" ++ m == etag

/-- The getter `req.fresh` on the header fields: whether the cached copy a conditional
request speaks of is still fresh, given the entity tag of the response (the empty text
for none). The responses of `app.js` carry no `Last-Modified`, so a request with
`If-Modified-Since` is never fresh. -/
def fresh (req : Request) (etag : String) : Bool :=
  let modifiedSince := req.header "if-modified-since"
  let noneMatch := req.header "if-none-match"
  if !headerSet modifiedSince && !headerSet noneMatch then false
  else if (match req.header "cache-control" with
      | some v => noCacheDirective v
      | none => false) then false
  else if headerSet noneMatch && noneMatch != some "*" &&
      (etag == "" || !etagMatches etag (noneMatch.getD "")) then false
  else if headerSet modifiedSince then false
  else true

/-- What the service sends.
* `reply status body`: status and body as `res.send` puts them on the wire;
* `allow methods`: the router's own answer to `OPTIONS`, status 200;
* `notFound`: the default answer 404. -/
inductive Sent
  | reply (status : Nat) (body : String)
  | allow (methods : List String)
  | notFound
deriving DecidableEq, Repr

/-- The status code sent. -/
def Sent.status : Sent → Nat
  | .reply status _ => status
  | .allow _ => 200
  | .notFound => 404

/-- The work of `res.send` on what a handler handed over: the body gets its entity tag;
a `GET` or `HEAD` request with a status from 200 to 299 (or 304) that is fresh gets
status 304; statuses 204, 205 and 304 carry no body; a `HEAD` request gets no body. -/
def send (etagOf : String → String) (req : Request) : Response → Sent
  | .json status body =>
    let isFresh :=
      (req.method == "GET" || req.method == "HEAD") &&
        ((200 ≤ status && status < 300) || status == 304) && fresh req (etagOf body)
    let status1 := if isFresh then 304 else status
    let body1 := if status1 == 204 || status1 == 205 || status1 == 304 then "" else body
    .reply status1 (if req.method == "HEAD" then "" else body1)
  | .allow methods => .allow methods
  | .notFound => .notFound

/-- The service answering one request. -/
def answer (etagOf : String → String) (cfg : Config) (req : Request) : Sent :=
  send etagOf req (handle cfg req)

/-- Serving one request as a step on the state of the module: the state the router and
the handler leave, and what is sent. -/
def step (etagOf : String → String) (st : Config) (req : Request) : Config × Sent :=
  let (st1, res) := process st req
  (st1, send etagOf req res)

/-- Serving a sequence of requests, one after the other, from a state; returns the final
state and what was sent, in order. -/
def serve (etagOf : String → String) (st : Config) : List Request → Config × List Sent
  | [] => (st, [])
  | req :: rest =>
    let (st1, res) := step etagOf st req
    let (st2, out) := serve etagOf st1 rest
    (st2, res :: out)

/-! ## The listener -/

/-- The arguments of a call `app.listen(port, host, callback)`, callback apart. -/
structure ListenCall where
  port : JsValue
  host : String
deriving DecidableEq, Repr

/-- Line 27: `app.listen(PORT, "0.0.0.0", ...)`. -/
def listenCall (cfg : Config) : ListenCall :=
  ⟨cfg.PORT, "0.0.0.0"⟩

/-- A Number as far as `listen` looks at one: not-a-number, an infinity, or a finite
double of magnitude `m * 2 ^ e`, with its sign (`neg` with `m = 0` is `-0`). -/
inductive JsNumber
  | nan
  | infinity (neg : Bool)
  | finite (neg : Bool) (m : Nat) (e : Int)
deriving DecidableEq, Repr

/-- The number of binary digits of `n`, counted in at most `fuel` halvings. -/
def bitCount : Nat → Nat → Nat
  | 0, _ => 0
  | fuel + 1, n => if n = 0 then 0 else bitCount fuel (n / 2) + 1

/-- The largest `k` with `2 ^ k ≤ n`, for positive `n`. -/
def log2Nat (n : Nat) : Nat :=
  bitCount n n - 1

/-- The largest `e` with `2 ^ e ≤ n / d`, for positive `n` and `d`. -/
def floorLog2 (n d : Nat) : Int :=
  let e : Int := (log2Nat n : Int) - (log2Nat d : Int)
  if d * 2 ^ e.toNat ≤ n * 2 ^ (-e).toNat then e else e - 1

/-- The double nearest to the rational `n / d` (ties to the even significand), with the
sign `neg`: 53 significant bits, the exponent of a normal number not below -1022, and
infinity from `2 ^ 1024` on. -/
def roundToDouble (neg : Bool) (n d : Nat) : JsNumber :=
  if n = 0 then .finite neg 0 0
  else
    let e : Int := max (floorLog2 n d) (-1022) - 52
    let a := n * 2 ^ (-e).toNat
    let b := d * 2 ^ e.toNat
    let f := a / b
    let r := a % b
    let m := if 2 * r < b then f else if b < 2 * r then f + 1 else if f % 2 = 0 then f else f + 1
    if 0 ≤ e ∧ 2 ^ 1024 ≤ m * 2 ^ e.toNat then .infinity neg else .finite neg m e

/-- The number a text of decimal digits writes. -/
def digitsValue (ds : List Char) : Nat :=
  ds.foldl (fun acc c => 10 * acc + (c.toNat - 48)) 0

/-- The value of a digit in a base up to 16, `none` for a character that is no digit of
the base. -/
def digitIn (base : Nat) (c : Char) : Option Nat :=
  let v :=
    if 48 ≤ c.toNat ∧ c.toNat ≤ 57 then c.toNat - 48
    else if 97 ≤ c.toNat ∧ c.toNat ≤ 102 then c.toNat - 87
    else if 65 ≤ c.toNat ∧ c.toNat ≤ 70 then c.toNat - 55
    else 16
  if v < base then some v else none

/-- The number a non-empty text of digits of a base writes. -/
def digitsIn (base : Nat) : List Char → Option Nat
  | [] => none
  | c :: cs =>
    (c :: cs).foldl
      (fun acc c =>
        match acc, digitIn base c with
        | some a, some v => some (base * a + v)
        | _, _ => none)
      (some 0)

/-- The grammar's `NonDecimalIntegerLiteral`: `0x`, `0o` or `0b`, in either case, and
digits of the base. -/
def nonDecimalIntegerLiteral : List Char → Option Nat
  | z :: x :: ds =>
    if z.toNat = 48 then
      if x = 'x' ∨ x = 'X' then digitsIn 16 ds
      else if x = 'o' ∨ x = 'O' then digitsIn 8 ds
      else if x = 'b' ∨ x = 'B' then digitsIn 2 ds
      else none
    else none
  | _ => none

/-- The grammar's `ExponentPart`, or nothing: the exponent it writes, 0 for nothing, and
`none` for any other text. -/
def exponentPart : List Char → Option Int
  | [] => some 0
  | c :: r =>
    if c = 'e' ∨ c = 'E' then
      match r with
      | [] => none
      | s :: ds =>
        if s.toNat = 43 then
          if ds ≠ [] ∧ ds.all Char.isDigit = true then some (digitsValue ds) else none
        else if s.toNat = 45 then
          if ds ≠ [] ∧ ds.all Char.isDigit = true then some (-(digitsValue ds : Int)) else none
        else if (s :: ds).all Char.isDigit = true then some (digitsValue (s :: ds))
        else none
    else none

/-- The grammar's `StrUnsignedDecimalLiteral` other than `Infinity`: digits, an optional
fraction and an optional exponent. Returns `(n, d)`, the value being `n / d`. -/
def strUnsignedDecimalLiteral (cs : List Char) : Option (Nat × Nat) :=
  let ip := cs.takeWhile Char.isDigit
  let r1 := cs.dropWhile Char.isDigit
  let fp := match r1 with
    | [] => []
    | c :: r2 => if c.toNat = 46 then r2.takeWhile Char.isDigit else []
  let r3 := match r1 with
    | [] => []
    | c :: r2 => if c.toNat = 46 then r2.dropWhile Char.isDigit else r1
  if ip = [] ∧ fp = [] then none
  else
    match exponentPart r3 with
    | none => none
    | some x =>
      let k : Int := x - fp.length
      some (digitsValue (ip ++ fp) * 10 ^ k.toNat, 10 ^ (-k).toNat)

/-- The grammar's `StrDecimalLiteral` after its sign. -/
def strDecimalLiteral (neg : Bool) (cs : List Char) : JsNumber :=
  if cs = "Infinity".data then .infinity neg
  else
    match strUnsignedDecimalLiteral cs with
    | none => .nan
    | some (n, d) => roundToDouble neg n d

/-- The abstract operation `StringToNumber`, which is `Number(s)` on a string: white
space at the two ends is dropped; the empty text is 0; then a literal in base 16, 8 or 2,
or a decimal literal with an optional sign; `NaN` for any other text. -/
def StringToNumber (s : String) : JsNumber :=
  let cs := trimWith jsWhiteSpace s.data
  match cs with
  | [] => .finite false 0 0
  | c :: r =>
    match nonDecimalIntegerLiteral cs with
    | some n => roundToDouble false n 1
    | none =>
      if c.toNat = 43 then strDecimalLiteral false r
      else if c.toNat = 45 then strDecimalLiteral true r
      else strDecimalLiteral false cs

/-- The comparison `x >= 0`. -/
def JsNumber.nonNegative : JsNumber → Bool
  | .nan => false
  | .infinity neg => !neg
  | .finite neg m _ => !neg || m == 0

/-- The integer a Number is, when it is a non-negative integer (`-0` counts as 0). -/
def JsNumber.toNat? : JsNumber → Option Nat
  | .nan => none
  | .infinity _ => none
  | .finite neg m e =>
    if neg ∧ m ≠ 0 then none
    else if 0 ≤ e then some (m * 2 ^ e.toNat)
    else if m % 2 ^ (-e).toNat = 0 then some (m / 2 ^ (-e).toNat)
    else none

/-- What a call of `listen` comes to: the server binds and listens on a TCP port of a
host, on a TCP port the system chooses, or on a pipe, or the call throws for a bad
port. -/
inductive Endpoint
  | tcp (host : String) (port : Nat)
  | tcpAnyPort (host : String)
  | pipe (path : String)
  | badPort
deriving DecidableEq, Repr

/-- The runtime's `server.listen(port, host, callback)`, which `app.listen` passes its
arguments to. A string that `Number` does not turn into a number `>= 0` is the path of a
pipe (a UNIX domain socket) and the host is not looked at. Any other port has to be an
integer from 0 to 65535, a string not only of white space, else the call throws
`ERR_SOCKET_BAD_PORT`; port 0, and an `undefined` port, ask the system for any free
port. -/
def listen (call : ListenCall) : Endpoint :=
  match call.port with
  | .undefined => .tcpAnyPort call.host
  | .str s =>
    if (StringToNumber s).nonNegative then
      if trimWith jsWhiteSpace s.data = [] then .badPort
      else
        match (StringToNumber s).toNat? with
        | none => .badPort
        | some p => if 65535 < p then .badPort else if p = 0 then .tcpAnyPort call.host
          else .tcp call.host p
    else .pipe s
  | .num n =>
    if 65535 < n then .badPort else if n = 0 then .tcpAnyPort call.host else .tcp call.host n

/-- The value of a non-empty string of ASCII decimal digits, `none` for any other
string. -/
def decimalValue? (s : String) : Option Nat :=
  if s.data ≠ [] ∧ s.data.all Char.isDigit = true then some (digitsValue s.data) else none

/-- The TCP port a `port` argument makes the server listen on: `none` when the system
chooses the port, when the port is refused and when the argument names a pipe. -/
def JsValue.portNumber? (v : JsValue) : Option Nat :=
  match listen ⟨v, "0.0.0.0"⟩ with
  | .tcp _ p => some p
  | _ => none

/-- Line 28: the text the callback of `listen` logs, for a port that is a string or a
number. -/
def startupLog (cfg : Config) : Option String :=
  match cfg.PORT with
  | .str s => some ("DevOps demo app running on port " ++ s)
  | .num n => some ("DevOps demo app running on port " ++ toString n)
  | .undefined => none

/-- A character `QuoteJSONString` copies as it is: not a control character, not the
double quote, not the backslash. -/
def plainChar (c : Char) : Bool :=
  32 ≤ c.toNat && c.toNat != 34 && c.toNat != 92

/-! ## Decoding JSON

The decoder the round-trip property of the `/version` body is stated with. It is not part
of `app.js`: it reads the fragment of the JSON grammar of RFC 8259 made of one object
whose member values are strings, so a text it accepts is well-formed JSON and the members
it returns are the members any JSON decoder returns. -/

/-- The value of a hexadecimal digit, of either case. -/
def hexValue? (c : Char) : Option Nat :=
  if 48 ≤ c.toNat ∧ c.toNat ≤ 57 then some (c.toNat - 48)
  else if 97 ≤ c.toNat ∧ c.toNat ≤ 102 then some (c.toNat - 87)
  else if 65 ≤ c.toNat ∧ c.toNat ≤ 70 then some (c.toNat - 55)
  else none

/-- The code unit four hexadecimal digits denote. -/
def hex4? (a b c d : Char) : Option Nat :=
  match hexValue? a, hexValue? b, hexValue? c, hexValue? d with
  | some x, some y, some z, some w => some (4096 * x + 256 * y + 16 * z + w)
  | _, _, _, _ => none

/-- The character a two-character escape stands for. -/
def escapeChar? (e : Char) : Option Char :=
  if e = '"' then some (Char.ofNat 34)
  else if e.toNat = 92 then some (Char.ofNat 92)
  else if e = '/' then some '/'
  else if e = 'b' then some (Char.ofNat 8)
  else if e = 'f' then some (Char.ofNat 12)
  else if e = 'n' then some (Char.ofNat 10)
  else if e = 'r' then some (Char.ofNat 13)
  else if e = 't' then some (Char.ofNat 9)
  else none

/-- Puts a decoded character in front of the text decoded after it. -/
def consChar (c : Char) : Option (List Char × List Char) → Option (List Char × List Char)
  | some (cs, rest) => some (c :: cs, rest)
  | none => none

/-- The second half of a surrogate pair, `\uXXXX` with a low surrogate, after the high
surrogate `n`. -/
def decodeLowSurrogate (n : Nat) : List Char → Option (Char × List Char)
  | b :: u :: l1 :: l2 :: l3 :: l4 :: rest =>
    if b.toNat = 92 ∧ u = 'u' then
      match hex4? l1 l2 l3 l4 with
      | none => none
      | some m =>
        if 0xDC00 ≤ m ∧ m < 0xE000 then
          some (Char.ofNat (0x10000 + (n - 0xD800) * 1024 + (m - 0xDC00)), rest)
        else none
    else none
  | _ => none

/-- The character of an escape `\uXXXX`, the input being what follows `\u`. A surrogate
that is not part of a pair denotes no character and is refused. -/
def decodeUnicode : List Char → Option (Char × List Char)
  | h1 :: h2 :: h3 :: h4 :: rest =>
    match hex4? h1 h2 h3 h4 with
    | none => none
    | some n =>
      if 0xD800 ≤ n ∧ n < 0xDC00 then decodeLowSurrogate n rest
      else if 0xDC00 ≤ n ∧ n < 0xE000 then none
      else some (Char.ofNat n, rest)
  | _ => none

/-- The next character of a JSON string literal (RFC 8259, section 7) that is not its
closing quote: an escape, or an unescaped character, which is neither a control
character nor a quote. Returns the character and the input after it. -/
def decodeChar : List Char → Option (Char × List Char)
  | [] => none
  | c :: rest =>
    if c.toNat = 92 then
      match rest with
      | [] => none
      | e :: rest1 =>
        if e = 'u' then decodeUnicode rest1
        else
          match escapeChar? e with
          | none => none
          | some x => some (x, rest1)
    else if c.toNat < 32 ∨ c.toNat = 34 then none
    else some (c, rest)

/-- The characters of a JSON string literal after its opening quote, up to its closing
quote: returns the decoded text and the input after the closing quote. Every round uses
one unit of fuel and at least one character of input. -/
def parseStringBody : Nat → List Char → Option (List Char × List Char)
  | 0, _ => none
  | _ + 1, [] => none
  | fuel + 1, c :: rest =>
    if c.toNat = 34 then some ([], rest)
    else
      match decodeChar (c :: rest) with
      | none => none
      | some (x, rest1) =>
        match parseStringBody fuel rest1 with
        | none => none
        | some (cs, rest2) => some (x :: cs, rest2)

/-- The input without the JSON whitespace (RFC 8259, section 2) at its front. -/
def skipWs : List Char → List Char
  | [] => []
  | c :: rest =>
    if c.toNat = 32 ∨ c.toNat = 9 ∨ c.toNat = 10 ∨ c.toNat = 13 then skipWs rest
    else c :: rest

/-- A JSON string literal at the front of the input: its text and the input after it. -/
def parseString : List Char → Option (String × List Char)
  | [] => none
  | q :: body =>
    if q.toNat = 34 then
      match parseStringBody body.length body with
      | none => none
      | some (cs, rest) => some (⟨cs⟩, rest)
    else none

/-- One member of an object, `string : string` with optional whitespace around the
colon. -/
def parseMember (input : List Char) : Option ((String × String) × List Char) :=
  match parseString input with
  | none => none
  | some (k, r1) =>
    match skipWs r1 with
    | [] => none
    | c :: r2 =>
      if c.toNat = 58 then
        match parseString (skipWs r2) with
        | none => none
        | some (v, r3) => some ((k, v), r3)
      else none

/-- The members of an object up to its closing brace, separated by commas: the members
in order and the input after the brace. One unit of fuel per member. -/
def parseMembers : Nat → List Char → Option (List (String × String) × List Char)
  | 0, _ => none
  | fuel + 1, input =>
    match parseMember input with
    | none => none
    | some (kv, r) =>
      match skipWs r with
      | [] => none
      | c :: r1 =>
        if c.toNat = 44 then
          match parseMembers fuel (skipWs r1) with
          | none => none
          | some (kvs, r2) => some (kv :: kvs, r2)
        else if c.toNat = 125 then some ([kv], r1)
        else none

/-- Decoding a JSON text (RFC 8259) that is one object whose member values are all
strings: its members in order. Any other text gives `none`. -/
def parseObject (text : String) : Option (List (String × String)) :=
  match skipWs text.data with
  | [] => none
  | c :: r =>
    if c.toNat = 123 then
      match skipWs r with
      | [] => none
      | d :: r1 =>
        if d.toNat = 125 then
          if skipWs r1 = [] then some [] else none
        else
          match parseMembers text.length (d :: r1) with
          | none => none
          | some (kvs, r2) => if skipWs r2 = [] then some kvs else none
    else none

/-! ## The specification's wording of the `/version` body -/

/-- The body the specification writes for `/version`, the version text `V` put between
the quotes as it is. -/
def versionBodyText (V : String) : String :=
  "\x7b\"service\":\"devops-demo\",\"version\":\"" ++ V ++ "\"\x7d"

/-! ## Configuration lemmas -/

theorem VERSION_unset (p : Option String) : VERSION ⟨p, none⟩ = .str "v1.0.0" := rfl

theorem VERSION_empty (p : Option String) : VERSION ⟨p, some ""⟩ = .str "v1.0.0" := rfl

theorem VERSION_set (p : Option String) (V : String) (hV : V ≠ "") :
    VERSION ⟨p, some V⟩ = .str V := by
  simp [VERSION, jsOr, envGet, JsValue.truthy, hV]

theorem PORT_unset (v : Option String) : PORT ⟨none, v⟩ = .num 5100 := rfl

theorem PORT_empty (v : Option String) : PORT ⟨some "", v⟩ = .num 5100 := rfl

theorem PORT_set (s : String) (v : Option String) (hs : s ≠ "") :
    PORT ⟨some s, v⟩ = .str s := by
  simp [PORT, jsOr, envGet, JsValue.truthy, hs]

/-- The version constant is always a non-empty string. -/
theorem VERSION_str (env : Env) : ∃ V, VERSION env = .str V ∧ V ≠ "" := by
  obtain ⟨p, v⟩ := env
  cases v with
  | none => exact ⟨"v1.0.0", rfl, by decide⟩
  | some V =>
    by_cases hV : V = ""
    · subst hV
      exact ⟨"v1.0.0", rfl, by decide⟩
    · exact ⟨V, VERSION_set p V hV, hV⟩

/-! ## Routing and serialisation lemmas -/

theorem dispatch_version (query : String) (headers : List (String × String)) :
    dispatch ⟨"GET", "/version", query, headers⟩ routes [] = .ran .version := rfl

/-- The body of `/version` for a version constant that is a string. -/
theorem version_body (P : JsValue) (V query : String) (headers : List (String × String)) :
    handle ⟨P, .str V⟩ ⟨"GET", "/version", query, headers⟩
      = .json 200
          ("\x7b\"service\":\"devops-demo\",\"version\":" ++ QuoteJSONString V ++ "\x7d") := by
  rfl

theorem quoteChar_plain (c : Char) (h : plainChar c = true) : quoteChar c = [c] := by
  simp [plainChar] at h
  unfold quoteChar
  obtain ⟨⟨h1, h2⟩, h3⟩ := h
  have e1 : c.toNat ≠ 8 := by omega
  have e2 : c.toNat ≠ 9 := by omega
  have e3 : c.toNat ≠ 10 := by omega
  have e4 : c.toNat ≠ 12 := by omega
  have e5 : c.toNat ≠ 13 := by omega
  have e6 : ¬ c.toNat < 32 := by omega
  simp [e1, e2, e3, e4, e5, e6, h2, h3]

theorem quoteChars_plain (cs : List Char) (h : cs.all plainChar = true) :
    quoteChars cs = cs := by
  induction cs with
  | nil => rfl
  | cons c cs ih =>
    simp only [List.all_cons, Bool.and_eq_true] at h
    simp [quoteChars, quoteChar_plain c h.1, ih h.2]

theorem QuoteJSONString_plain (V : String) (h : V.data.all plainChar = true) :
    QuoteJSONString V = "\"" ++ V ++ "\"" := by
  unfold QuoteJSONString
  rw [quoteChars_plain _ h]
  rfl

theorem version_body_plain (P : JsValue) (V query : String)
    (headers : List (String × String)) (h : V.data.all plainChar = true) :
    handle ⟨P, .str V⟩ ⟨"GET", "/version", query, headers⟩ = .json 200 (versionBodyText V) := by
  rw [version_body, QuoteJSONString_plain V h]
  congr 1
  apply String.ext
  simp [versionBodyText]

/-! ## Decoding what `QuoteJSONString` wrote -/

theorem char_eq_ofNat (c : Char) (n : Nat) (h : c.toNat = n) : c = Char.ofNat n := by
  rw [← h, Char.ofNat_toNat]

theorem decodeChar_control (n : Nat) (hn : n < 32) (tail : List Char) :
    decodeChar (unicodeEscape n ++ tail) = some (Char.ofNat n, tail) := by
  interval_cases n <;> rfl

theorem decodeChar_quoteChar (c : Char) (tail : List Char) :
    decodeChar (quoteChar c ++ tail) = some (c, tail) := by
  unfold quoteChar
  split_ifs with h1 h2 h3 h4 h5 h6 h7 h8
  · rw [char_eq_ofNat c 8 h1]; rfl
  · rw [char_eq_ofNat c 9 h2]; rfl
  · rw [char_eq_ofNat c 10 h3]; rfl
  · rw [char_eq_ofNat c 12 h4]; rfl
  · rw [char_eq_ofNat c 13 h5]; rfl
  · rw [char_eq_ofNat c 34 h6]; rfl
  · rw [char_eq_ofNat c 92 h7]; rfl
  · rw [decodeChar_control c.toNat h8 tail, Char.ofNat_toNat]
  · simp [decodeChar, h6, h7, h8]

theorem quoteChar_head (c : Char) :
    ∃ d ds, quoteChar c = d :: ds ∧ d.toNat ≠ 34 := by
  unfold quoteChar
  split_ifs with h1 h2 h3 h4 h5 h6 h7 h8
  · exact ⟨_, _, rfl, by decide⟩
  · exact ⟨_, _, rfl, by decide⟩
  · exact ⟨_, _, rfl, by decide⟩
  · exact ⟨_, _, rfl, by decide⟩
  · exact ⟨_, _, rfl, by decide⟩
  · exact ⟨_, _, rfl, by decide⟩
  · exact ⟨_, _, rfl, by decide⟩
  · exact ⟨_, _, rfl, by decide⟩
  · exact ⟨c, [], rfl, h6⟩

/-- Decoding the quoted characters of a text, closing quote included, gives the text
back, with any fuel that reaches the length of the input. -/
theorem parse_quoteChars (cs : List Char) : ∀ (fuel : Nat) (rest : List Char),
    (quoteChars cs ++ Char.ofNat 34 :: rest).length ≤ fuel →
    parseStringBody fuel (quoteChars cs ++ Char.ofNat 34 :: rest) = some (cs, rest) := by
  induction cs with
  | nil =>
    intro fuel rest hf
    cases fuel with
    | zero => simp [quoteChars] at hf
    | succ fuel => rfl
  | cons c cs ih =>
    intro fuel rest hf
    obtain ⟨d, ds, hq, hd⟩ := quoteChar_head c
    have hdec := decodeChar_quoteChar c (quoteChars cs ++ Char.ofNat 34 :: rest)
    simp only [quoteChars, List.append_assoc] at hf ⊢
    rw [hq] at hf hdec ⊢
    cases fuel with
    | zero => simp at hf
    | succ fuel =>
      simp only [List.cons_append] at hdec hf ⊢
      rw [parseStringBody]
      simp only [hd, if_false, hdec]
      rw [ih fuel rest (by simp only [List.length_cons, List.length_append] at hf ⊢; omega)]

theorem parseString_quote (cs rest : List Char) :
    parseString (Char.ofNat 34 :: (quoteChars cs ++ Char.ofNat 34 :: rest))
      = some (⟨cs⟩, rest) := by
  have h : (Char.ofNat 34).toNat = 34 := by decide
  simp only [parseString, h, if_true]
  rw [parse_quoteChars cs _ rest (le_refl _)]

theorem parseMember_quote (k v rest : List Char) :
    parseMember (Char.ofNat 34 :: (quoteChars k ++ Char.ofNat 34 :: Char.ofNat 58 ::
        Char.ofNat 34 :: (quoteChars v ++ Char.ofNat 34 :: rest)))
      = some ((⟨k⟩, ⟨v⟩), rest) := by
  unfold parseMember
  rw [parseString_quote]
  have h1 : skipWs (Char.ofNat 58 :: Char.ofNat 34 :: (quoteChars v ++ Char.ofNat 34 :: rest))
      = Char.ofNat 58 :: Char.ofNat 34 :: (quoteChars v ++ Char.ofNat 34 :: rest) := rfl
  have h2 : skipWs (Char.ofNat 34 :: (quoteChars v ++ Char.ofNat 34 :: rest))
      = Char.ofNat 34 :: (quoteChars v ++ Char.ofNat 34 :: rest) := rfl
  have h3 : (Char.ofNat 58).toNat = 58 := by decide
  simp only [h1, h2, h3, if_true, parseString_quote]

theorem parseMembers_two (k1 v1 k2 v2 : List Char) (fuel : Nat) :
    parseMembers (fuel + 2)
        (Char.ofNat 34 :: (quoteChars k1 ++ Char.ofNat 34 ::
          Char.ofNat 58 :: Char.ofNat 34 :: (quoteChars v1 ++ Char.ofNat 34 ::
          Char.ofNat 44 :: Char.ofNat 34 :: (quoteChars k2 ++ Char.ofNat 34 ::
          Char.ofNat 58 :: Char.ofNat 34 :: (quoteChars v2 ++ Char.ofNat 34 ::
          [Char.ofNat 125])))))
      = some ([(⟨k1⟩, ⟨v1⟩), (⟨k2⟩, ⟨v2⟩)], []) := by
  have hc : ∀ t : List Char, skipWs (Char.ofNat 44 :: t) = Char.ofNat 44 :: t := fun _ => rfl
  have hq : ∀ t : List Char, skipWs (Char.ofNat 34 :: t) = Char.ofNat 34 :: t := fun _ => rfl
  have hb : skipWs [Char.ofNat 125] = [Char.ofNat 125] := rfl
  have h44 : (Char.ofNat 44).toNat = 44 := by decide
  have h125 : (Char.ofNat 125).toNat = 125 := by decide
  have hn : ¬ (Char.ofNat 125).toNat = 44 := by decide
  rw [parseMembers]
  simp only [parseMember_quote, hc, hq, h44, if_true]
  rw [parseMembers]
  simp only [parseMember_quote, hb, h125, hn, if_true, if_false]
  simp

/-- The text of an object of two members with string values, as `JSON.stringify` lays it
out, decodes to the two members. -/
theorem parseObject_two (k1 v1 k2 v2 : String) :
    parseObject ("\x7b" ++ ",".intercalate
        [QuoteJSONString k1 ++ ":" ++ QuoteJSONString v1,
         QuoteJSONString k2 ++ ":" ++ QuoteJSONString v2] ++ "\x7d")
      = some [(k1, v1), (k2, v2)] := by
  have hdata : ("\x7b" ++ ",".intercalate
        [QuoteJSONString k1 ++ ":" ++ QuoteJSONString v1,
         QuoteJSONString k2 ++ ":" ++ QuoteJSONString v2] ++ "\x7d")
      = ⟨Char.ofNat 123 :: Char.ofNat 34 :: (quoteChars k1.data ++ Char.ofNat 34 ::
          Char.ofNat 58 :: Char.ofNat 34 :: (quoteChars v1.data ++ Char.ofNat 34 ::
          Char.ofNat 44 :: Char.ofNat 34 :: (quoteChars k2.data ++ Char.ofNat 34 ::
          Char.ofNat 58 :: Char.ofNat 34 :: (quoteChars v2.data ++ Char.ofNat 34 ::
          [Char.ofNat 125]))))⟩ := by
    apply String.ext
    simp [QuoteJSONString, String.intercalate, String.intercalate.go]
  rw [hdata]
  have ho : ∀ t : List Char, skipWs (Char.ofNat 123 :: t) = Char.ofNat 123 :: t := fun _ => rfl
  have hq : ∀ t : List Char, skipWs (Char.ofNat 34 :: t) = Char.ofNat 34 :: t := fun _ => rfl
  have h123 : (Char.ofNat 123).toNat = 123 := by decide
  have hn : ¬ (Char.ofNat 34).toNat = 125 := by decide
  have hnil : skipWs [] = [] := rfl
  unfold parseObject
  simp only [ho, hq, h123, hn, if_true, if_false, String.length, List.length_cons,
    parseMembers_two, hnil]
/-! ## The version report as JSON -/

/-- C10: in every environment the body of the answer to GET `/version` is a JSON text that
decodes to the object with exactly the members `service`, with value `devops-demo`, and
`version`, with the version constant as its value: the value of `APP_VERSION` when that
is a non-empty string, whatever characters it holds, and `v1.0.0` otherwise. -/
theorem version_body_decodes (env : Env) (query : String) (headers : List (String × String)) :
    ∃ body V,
      handle (startup env) ⟨"GET", "/version", query, headers⟩ = .json 200 body ∧
      VERSION env = .str V ∧
      (∀ s, env.APP_VERSION = some s → s ≠ "" → V = s) ∧
      ((env.APP_VERSION = none ∨ env.APP_VERSION = some "") → V = "v1.0.0") ∧
      parseObject body = some [("service", "devops-demo"), ("version", V)] := by
  obtain ⟨V, hV, _⟩ := VERSION_str env
  refine ⟨JSON_stringify [("service", .str "devops-demo"), ("version", .str V)], V,
    ?_, hV, ?_, ?_, ?_⟩
  · show handle ⟨_, VERSION env⟩ _ = _
    rw [hV]
    rfl
  · intro s hs hne
    obtain ⟨p, v⟩ := env
    simp only at hs
    subst hs
    rw [VERSION_set p s hne] at hV
    exact (JsValue.str.inj hV).symm
  · intro h
    obtain ⟨p, v⟩ := env
    simp only at h
    rcases h with h | h <;> subst h
    · exact (JsValue.str.inj hV).symm
    · exact (JsValue.str.inj hV).symm
  · exact parseObject_two "service" "devops-demo" "version" V


/-! ## Decimal numerals -/

theorem digitChar_value (k : Nat) (hk : k < 10) :
    (Nat.digitChar k).isDigit = true ∧ (Nat.digitChar k).toNat - 48 = k := by
  interval_cases k <;> exact ⟨rfl, rfl⟩

/-- The digits `Nat.toDigitsCore` puts in front of its accumulator are a decimal numeral
of the number. -/
theorem toDigitsCore_decimal (fuel : Nat) : ∀ (n : Nat) (ds : List Char), n < fuel →
    ∃ pre, Nat.toDigitsCore 10 fuel n ds = pre ++ ds ∧ pre ≠ [] ∧
      pre.all Char.isDigit = true ∧ digitsValue pre = n := by
  induction fuel with
  | zero => intro n ds h; omega
  | succ fuel ih =>
    intro n ds h
    have hd := digitChar_value (n % 10) (Nat.mod_lt _ (by decide))
    unfold Nat.toDigitsCore
    by_cases h0 : n / 10 = 0
    · refine ⟨[Nat.digitChar (n % 10)], by simp [h0], by simp, by simp [hd.1], ?_⟩
      simp only [digitsValue, List.foldl_cons, List.foldl_nil, hd.2]
      omega
    · obtain ⟨pre, e, _, hall, hval⟩ :=
        ih (n / 10) (Nat.digitChar (n % 10) :: ds) (by omega)
      refine ⟨pre ++ [Nat.digitChar (n % 10)], by simp [h0, e], by simp, ?_, ?_⟩
      · simp [List.all_append, hall, hd.1]
      · simp only [digitsValue] at hval
        simp only [digitsValue, List.foldl_append, List.foldl_cons, List.foldl_nil, hval, hd.2]
        omega

/-- The decimal numeral of a number is a non-empty text of digits that writes it. -/
theorem toString_digits (p : Nat) :
    ∃ pre, toString p = ⟨pre⟩ ∧ pre ≠ [] ∧ pre.all Char.isDigit = true ∧
      digitsValue pre = p := by
  obtain ⟨pre, e, hne, hall, hval⟩ := toDigitsCore_decimal (p + 1) p [] (by omega)
  refine ⟨pre, ?_, hne, hall, hval⟩
  apply String.ext
  show (Nat.repr p).data = pre
  simp [Nat.repr, Nat.toDigits, List.asString, e]

/-- Reading back the decimal numeral of a number gives the number. -/
theorem decimalValue_toString (p : Nat) : decimalValue? (toString p) = some p := by
  obtain ⟨pre, e, hne, hall, hval⟩ := toString_digits p
  simp [decimalValue?, e, hne, hall, hval]

theorem toString_ne_empty (p : Nat) : toString p ≠ "" := by
  intro h
  have := decimalValue_toString p
  rw [h] at this
  simp [decimalValue?] at this

/-! ## Reading a port -/

theorem dropWhile_none (p : Char → Bool) (l : List Char) (h : ∀ c ∈ l, p c = false) :
    l.dropWhile p = l := by
  cases l with
  | nil => rfl
  | cons c cs => simp [List.dropWhile, h c (List.mem_cons_self _ _)]

theorem trimWith_none (p : Char → Bool) (l : List Char) (h : ∀ c ∈ l, p c = false) :
    trimWith p l = l := by
  unfold trimWith
  rw [dropWhile_none p l h, dropWhile_none p l.reverse (fun c hc => h c (List.mem_reverse.mp hc))]
  exact List.reverse_reverse l

theorem isDigit_bounds (c : Char) (h : c.isDigit = true) : 48 ≤ c.toNat ∧ c.toNat ≤ 57 := by
  simp only [Char.isDigit, Bool.and_eq_true, decide_eq_true_eq] at h
  constructor
  · exact h.1
  · exact h.2

theorem isDigit_not_whiteSpace (c : Char) (h : c.isDigit = true) : jsWhiteSpace c = false := by
  have hb := isDigit_bounds c h
  simp only [jsWhiteSpace, Bool.or_eq_false_iff, beq_eq_false_iff_ne, Bool.and_eq_false_iff,
    decide_eq_false_iff_not]
  omega

theorem nonDecimal_digits (l : List Char) (h : l.all Char.isDigit = true) :
    nonDecimalIntegerLiteral l = none := by
  match l, h with
  | [], _ => rfl
  | [_], _ => rfl
  | z :: x :: ds, h =>
    simp only [List.all_cons, Bool.and_eq_true] at h
    have hb := isDigit_bounds x h.2.1
    have e1 : x ≠ 'x' := by rintro rfl; revert hb; decide
    have e2 : x ≠ 'X' := by rintro rfl; revert hb; decide
    have e3 : x ≠ 'o' := by rintro rfl; revert hb; decide
    have e4 : x ≠ 'O' := by rintro rfl; revert hb; decide
    have e5 : x ≠ 'b' := by rintro rfl; revert hb; decide
    have e6 : x ≠ 'B' := by rintro rfl; revert hb; decide
    simp [nonDecimalIntegerLiteral, e1, e2, e3, e4, e5, e6]

theorem strUnsigned_digits (l : List Char) (hne : l ≠ []) (h : l.all Char.isDigit = true) :
    strUnsignedDecimalLiteral l = some (digitsValue l, 1) := by
  have ht : l.takeWhile Char.isDigit = l :=
    List.takeWhile_eq_self_iff.mpr (fun c hc => List.all_eq_true.mp h c hc)
  have hd : l.dropWhile Char.isDigit = [] :=
    List.dropWhile_eq_nil_iff.mpr (fun c hc => List.all_eq_true.mp h c hc)
  simp [strUnsignedDecimalLiteral, ht, hd, hne, exponentPart]

theorem bitCount_zero (fuel : Nat) : bitCount fuel 0 = 0 := by
  cases fuel <;> rfl

theorem bitCount_spec (fuel : Nat) : ∀ n : Nat, n ≤ fuel → n ≠ 0 →
    2 ^ (bitCount fuel n - 1) ≤ n ∧ n < 2 ^ bitCount fuel n := by
  induction fuel with
  | zero => intro n h h0; omega
  | succ fuel ih =>
    intro n h h0
    simp only [bitCount, h0, if_false, Nat.add_sub_cancel]
    by_cases hz : n / 2 = 0
    · rw [hz, bitCount_zero]
      constructor <;> simp <;> omega
    · obtain ⟨lo, hi⟩ := ih (n / 2) (by omega) hz
      have hb : bitCount fuel (n / 2) ≠ 0 := by
        intro e
        rw [e] at hi
        simp at hi
        exact hz hi
      obtain ⟨k, hk⟩ := Nat.exists_eq_succ_of_ne_zero hb
      rw [hk] at lo hi ⊢
      simp only [Nat.succ_sub_one] at lo
      rw [pow_succ] at hi ⊢
      rw [pow_succ]
      constructor <;> omega

theorem log2Nat_spec (n : Nat) (h0 : n ≠ 0) :
    2 ^ log2Nat n ≤ n ∧ n < 2 ^ (log2Nat n + 1) := by
  obtain ⟨lo, hi⟩ := bitCount_spec n n (le_refl n) h0
  have hb : bitCount n n ≠ 0 := by
    intro e
    rw [e] at hi
    simp at hi
    exact h0 hi
  unfold log2Nat
  rw [Nat.sub_add_cancel (Nat.pos_of_ne_zero hb)]
  exact ⟨lo, hi⟩

theorem roundToDouble_nat (n : Nat) (h0 : n ≠ 0) (h : n < 2 ^ 52) :
    (roundToDouble false n 1).nonNegative = true ∧ (roundToDouble false n 1).toNat? = some n := by
  obtain ⟨hle, _⟩ := log2Nat_spec n h0
  have hL : log2Nat n < 52 := by
    by_contra hc
    have h53 : 52 ≤ log2Nat n := Nat.le_of_not_lt hc
    have hp : 2 ^ 52 ≤ 2 ^ log2Nat n := Nat.pow_le_pow_right (by decide) h53
    exact absurd (lt_of_le_of_lt (le_trans hp hle) h) (lt_irrefl _)
  have h1 : log2Nat 1 = 0 := by decide
  have hfl : floorLog2 n 1 = (log2Nat n : Int) := by
    have t : (-(log2Nat n : Int)).toNat = 0 := by omega
    simp only [floorLog2, h1, Nat.cast_zero, sub_zero, Int.toNat_ofNat, one_mul, t, pow_zero,
      mul_one, hle, if_true]
  have he : max (log2Nat n : Int) (-1022) - 52 = -((52 - log2Nat n : Nat) : Int) := by
    omega
  have t1 : (-(-((52 - log2Nat n : Nat) : Int))).toNat = 52 - log2Nat n := by omega
  have t2 : (-((52 - log2Nat n : Nat) : Int)).toNat = 0 := by omega
  have t3 : ¬ (0 : Int) ≤ -((52 - log2Nat n : Nat) : Int) := by omega
  have hround : roundToDouble false n 1
      = .finite false (n * 2 ^ (52 - log2Nat n)) (-((52 - log2Nat n : Nat) : Int)) := by
    unfold roundToDouble
    simp only [h0, if_false, hfl, he, t1, t2, pow_zero, mul_one, Nat.div_one, Nat.mod_one,
      mul_zero, Nat.lt_one_iff, Nat.pos_of_ne_zero, zero_lt_one, if_true, t3, false_and]
  rw [hround]
  constructor
  · rfl
  · simp [JsNumber.toNat?, t1, t3]

theorem listen_digits (l : List Char) (host : String) (hne : l ≠ [])
    (h : l.all Char.isDigit = true) (h1 : 1 ≤ digitsValue l) (h2 : digitsValue l ≤ 65535) :
    listen ⟨.str ⟨l⟩, host⟩ = .tcp host (digitsValue l) := by
  have hall : ∀ c ∈ l, c.isDigit = true := fun c hc => List.all_eq_true.mp h c hc
  have htrim : trimWith jsWhiteSpace l = l :=
    trimWith_none _ l (fun c hc => isDigit_not_whiteSpace c (hall c hc))
  obtain ⟨c, r, rfl⟩ := List.exists_cons_of_ne_nil hne
  have hc := isDigit_bounds c (hall c (List.mem_cons_self _ _))
  have hinf : c :: r ≠ "Infinity".data := by
    intro e
    rw [e] at h
    revert h
    decide
  have hnum : StringToNumber ⟨c :: r⟩ = roundToDouble false (digitsValue (c :: r)) 1 := by
    have e43 : ¬ c.toNat = 43 := by omega
    have e45 : ¬ c.toNat = 45 := by omega
    simp only [StringToNumber, htrim, nonDecimal_digits _ h, e43, e45, if_false,
      strDecimalLiteral, hinf, strUnsigned_digits _ hne h]
  have hr := roundToDouble_nat (digitsValue (c :: r)) (by omega)
    (lt_of_le_of_lt h2 (by norm_num))
  have h65 : ¬ 65535 < digitsValue (c :: r) := by omega
  have hz : ¬ digitsValue (c :: r) = 0 := by omega
  simp only [listen, hnum, hr.1, hr.2, if_true, htrim, h65, hz, if_false]
  simp

/-! ## Sending -/

/-- A request without `If-None-Match` and `If-Modified-Since` is never fresh. -/
theorem fresh_unconditional (req : Request) (etag : String)
    (hnm : req.headers.lookup "if-none-match" = none)
    (hms : req.headers.lookup "if-modified-since" = none) : fresh req etag = false := by
  simp [fresh, Request.header, hnm, hms, headerSet]

/-- What `res.send` does with a `GET` request and status 200: 304 and no body when the
request is fresh, 200 and the body otherwise. -/
theorem send_get_ok (etagOf : String → String) (path query body : String)
    (headers : List (String × String)) :
    send etagOf ⟨"GET", path, query, headers⟩ (.json 200 body)
      = if fresh ⟨"GET", path, query, headers⟩ (etagOf body) = true then .reply 304 ""
        else .reply 200 body := by
  cases h : fresh ⟨"GET", path, query, headers⟩ (etagOf body) <;> simp [send, h]

/-- A `GET` request without `If-None-Match` and `If-Modified-Since` gets status 200 and
the body the handler handed over. -/
theorem send_get_unconditional (etagOf : String → String) (path query body : String)
    (headers : List (String × String))
    (hnm : headers.lookup "if-none-match" = none)
    (hms : headers.lookup "if-modified-since" = none) :
    send etagOf ⟨"GET", path, query, headers⟩ (.json 200 body) = .reply 200 body := by
  rw [send_get_ok, fresh_unconditional _ _ hnm hms]
  simp

/-- Status 500 is never answered from freshness: a `GET` request for `/error` is sent
status 500 and the body, whatever its header fields. -/
theorem error_answer (etagOf : String → String) (cfg : Config) (query : String)
    (headers : List (String × String)) :
    answer etagOf cfg ⟨"GET", "/error", query, headers⟩
      = .reply 500 "\x7b\"message\":\"Intentional error for testing\"\x7d" := by
  rfl

/-! ## The fixed responses -/

/-- C1, counterexample: a GET request for `/health` with the header field
`If-None-Match: *` makes the handler hand over status 200 and the body, yet what is sent,
whatever the entity tag of the body, is status 304 with no body. -/
theorem health_response_counterexample :
    handle (startup ⟨none, none⟩) ⟨"GET", "/health", "", [("if-none-match", "*")]⟩
      = .json 200 "\x7b\"status\":\"OK\",\"service\":\"devops-demo\"\x7d" ∧
    ∀ etagOf : String → String,
      answer etagOf (startup ⟨none, none⟩) ⟨"GET", "/health", "", [("if-none-match", "*")]⟩
        = .reply 304 "" :=
  ⟨rfl, fun _ => rfl⟩

/-- C1, amended: a GET request for `/health` that carries neither `If-None-Match` nor
`If-Modified-Since` is answered, whatever its query string and other header fields and
whatever the environment, with status 200 and the body
`{"status":"OK","service":"devops-demo"}`. With any header fields the handler hands
over that status and body, and what is sent is 304 without a body exactly when the
request is a fresh conditional request, status 200 with that body otherwise. -/
theorem health_response (env : Env) (etagOf : String → String) (query : String)
    (headers : List (String × String))
    (hnm : headers.lookup "if-none-match" = none)
    (hms : headers.lookup "if-modified-since" = none) :
    answer etagOf (startup env) ⟨"GET", "/health", query, headers⟩
      = .reply 200 "\x7b\"status\":\"OK\",\"service\":\"devops-demo\"\x7d" ∧
    (∀ hs : List (String × String),
      handle (startup env) ⟨"GET", "/health", query, hs⟩
        = .json 200 "\x7b\"status\":\"OK\",\"service\":\"devops-demo\"\x7d") ∧
    (∀ hs : List (String × String),
      answer etagOf (startup env) ⟨"GET", "/health", query, hs⟩
        = if fresh ⟨"GET", "/health", query, hs⟩
              (etagOf "\x7b\"status\":\"OK\",\"service\":\"devops-demo\"\x7d") = true
          then .reply 304 ""
          else .reply 200 "\x7b\"status\":\"OK\",\"service\":\"devops-demo\"\x7d") := by
  refine ⟨?_, fun _ => rfl, ?_⟩
  · exact send_get_unconditional etagOf "/health" query _ headers hnm hms
  · intro hs
    exact send_get_ok etagOf "/health" query _ hs

/-- C1, witness: a plain GET request for `/health` with an `Accept` field. -/
theorem health_response_witness :
    ([("accept", "*/*")] : List (String × String)).lookup "if-none-match" = none ∧
    ([("accept", "*/*")] : List (String × String)).lookup "if-modified-since" = none ∧
    answer (fun body => "W/" ++ body) (startup ⟨none, none⟩)
        ⟨"GET", "/health", "probe=1", [("accept", "*/*")]⟩
      = .reply 200 "\x7b\"status\":\"OK\",\"service\":\"devops-demo\"\x7d" :=
  ⟨by decide, by decide,
    (health_response ⟨none, none⟩ (fun body => "W/" ++ body) "probe=1" [("accept", "*/*")]
      (by decide) (by decide)).1⟩

/-- C3: a GET request for `/error`, whatever the environment, is answered with status 500
and the body `{"message":"Intentional error for testing"}`. -/
theorem error_response (env : Env) (query : String) (headers : List (String × String)) :
    handle (startup env) ⟨"GET", "/error", query, headers⟩
      = .json 500 "\x7b\"message\":\"Intentional error for testing\"\x7d" := by
  rfl

/-! ## The version report -/

/-- C2, counterexample: with `APP_VERSION` set to the one-character string `"` the body
of `/version` carries the quote escaped, and is not the specification's text with the
value put in as it is (a text that is not JSON); and with `APP_VERSION=v2.3.1` a GET
request with `If-None-Match: *` is sent status 304 with no body. -/
theorem version_response_counterexample :
    ("\"" : String) ≠ "" ∧
    handle (startup ⟨none, some "\""⟩) ⟨"GET", "/version", "", []⟩
      = .json 200 "\x7b\"service\":\"devops-demo\",\"version\":\"\\\"\"\x7d" ∧
    handle (startup ⟨none, some "\""⟩) ⟨"GET", "/version", "", []⟩
      ≠ .json 200 (versionBodyText "\"") ∧
    parseObject (versionBodyText "\"") = none ∧
    (∀ etagOf : String → String,
      answer etagOf (startup ⟨none, some "\""⟩) ⟨"GET", "/version", "", []⟩
        = .reply 200 "\x7b\"service\":\"devops-demo\",\"version\":\"\\\"\"\x7d") ∧
    (∀ etagOf : String → String,
      answer etagOf (startup ⟨none, some "\""⟩) ⟨"GET", "/version", "", []⟩
        ≠ .reply 200 (versionBodyText "\"")) ∧
    (∀ etagOf : String → String,
      answer etagOf (startup ⟨none, some "v2.3.1"⟩)
          ⟨"GET", "/version", "", [("if-none-match", "*")]⟩
        = .reply 304 "") := by
  refine ⟨by decide, by decide, by decide, by decide, fun _ => rfl, ?_, fun _ => rfl⟩
  intro etagOf
  have h : answer etagOf (startup ⟨none, some "\""⟩) ⟨"GET", "/version", "", []⟩
      = .reply 200 "\x7b\"service\":\"devops-demo\",\"version\":\"\\\"\"\x7d" := rfl
  rw [h]
  decide

/-- C2, amended: a GET request for `/version` that carries neither `If-None-Match` nor
`If-Modified-Since` is answered with status 200; when `APP_VERSION` is a non-empty string
`V` without control characters, double quotes and backslashes the body is
`{"service":"devops-demo","version":"V"}`, and when it is unset the body is
`{"service":"devops-demo","version":"v1.0.0"}`. -/
theorem version_response (port : Option String) (etagOf : String → String)
    (V query : String) (headers : List (String × String))
    (hV : V ≠ "") (hplain : V.data.all plainChar = true)
    (hnm : headers.lookup "if-none-match" = none)
    (hms : headers.lookup "if-modified-since" = none) :
    answer etagOf (startup ⟨port, some V⟩) ⟨"GET", "/version", query, headers⟩
      = .reply 200 (versionBodyText V) ∧
    answer etagOf (startup ⟨port, none⟩) ⟨"GET", "/version", query, headers⟩
      = .reply 200 (versionBodyText "v1.0.0") ∧
    ∀ env : Env,
      (answer etagOf (startup env) ⟨"GET", "/version", query, headers⟩).status = 200 := by
  refine ⟨?_, ?_, ?_⟩
  · show send etagOf _ (handle ⟨_, VERSION ⟨port, some V⟩⟩ _) = _
    rw [VERSION_set port V hV, version_body_plain _ V query headers hplain]
    exact send_get_unconditional etagOf "/version" query _ headers hnm hms
  · exact send_get_unconditional etagOf "/version" query _ headers hnm hms
  · intro env
    obtain ⟨W, hW, _⟩ := VERSION_str env
    show (send etagOf _ (handle ⟨_, VERSION env⟩ _)).status = 200
    rw [hW, version_body, send_get_unconditional etagOf "/version" query _ headers hnm hms]
    rfl

/-- C2, witness: `APP_VERSION=v2.3.1` gives the body
`{"service":"devops-demo","version":"v2.3.1"}`. -/
theorem version_response_witness :
    ("v2.3.1" : String) ≠ "" ∧ ("v2.3.1" : String).data.all plainChar = true ∧
    ([] : List (String × String)).lookup "if-none-match" = none ∧
    ([] : List (String × String)).lookup "if-modified-since" = none ∧
    answer (fun body => "W/" ++ body) (startup ⟨none, some "v2.3.1"⟩)
        ⟨"GET", "/version", "", []⟩
      = .reply 200 "\x7b\"service\":\"devops-demo\",\"version\":\"v2.3.1\"\x7d" :=
  ⟨by decide, by decide, by decide, by decide,
    (version_response none (fun body => "W/" ++ body) "v2.3.1" "" []
      (by decide) (by decide) (by decide) (by decide)).1⟩

/-! ## Statelessness -/

/-- No handler changes the state of the module. -/
theorem handler_state (r : Route) (st : Config) (req : Request) :
    (r.handler st req).1 = st := by
  cases r <;> rfl

/-- Neither the router nor the handler it runs changes the state of the module. -/
theorem process_state (st : Config) (req : Request) : (process st req).1 = st := by
  unfold process
  cases dispatch req routes [] with
  | ran r => exact handler_state r st req
  | options methods => rfl
  | unhandled => rfl

theorem step_eq (etagOf : String → String) (st : Config) (req : Request) :
    step etagOf st req = (st, answer etagOf st req) := by
  have h := process_state st req
  unfold step answer handle
  exact Prod.ext h rfl

theorem serve_eq (etagOf : String → String) (st : Config) (reqs : List Request) :
    serve etagOf st reqs = (st, reqs.map (answer etagOf st)) := by
  induction reqs with
  | nil => rfl
  | cons req rest ih => simp [serve, step_eq, ih]

/-- C4: no handler changes the state of the module, which is the two constants; so, for
a fixed configuration, serving any sequence of requests leaves that state as it was,
sends for every request what would be sent for that request alone, and sends the same
status and body at any two positions of the sequence that hold the same request. -/
theorem serve_idempotent (etagOf : String → String) (cfg : Config) (reqs : List Request) :
    (∀ (r : Route) (st : Config) (req : Request), (r.handler st req).1 = st) ∧
    (serve etagOf cfg reqs).1 = cfg ∧
    (serve etagOf cfg reqs).2 = reqs.map (answer etagOf cfg) ∧
    ∀ i j : Nat, reqs[i]? = reqs[j]? →
      (serve etagOf cfg reqs).2[i]? = (serve etagOf cfg reqs).2[j]? := by
  rw [serve_eq]
  refine ⟨handler_state, rfl, rfl, ?_⟩
  intro i j h
  simp only [List.getElem?_map, h]

/-! ## Undefined paths -/

theorem dispatch_unmatched (req : Request) (options : List String) :
    ∀ rs : List Route, (∀ r ∈ rs, matchPath r.path req.path = false) →
      dispatch req rs options
        = if (req.method == "OPTIONS" && !options.isEmpty) = true then .options options
          else .unhandled := by
  intro rs
  induction rs with
  | nil => intro _; rfl
  | cons r rest ih =>
    intro h
    have hr := h r (List.mem_cons_self _ _)
    have hrest := ih (fun x hx => h x (List.mem_cons_of_mem _ hx))
    simp [dispatch, hr, hrest]

/-- C5, counterexample: the paths `/HEALTH` and `/health/` are not among `/health`,
`/version` and `/error`, yet a GET request for either runs the health handler and is
answered with status 200. -/
theorem undefined_path_counterexample :
    ("/HEALTH" : String) ∉ ["/health", "/version", "/error"] ∧
    dispatch ⟨"GET", "/HEALTH", "", []⟩ routes [] = .ran .health ∧
    (handle (startup ⟨none, none⟩) ⟨"GET", "/HEALTH", "", []⟩).status = 200 ∧
    ("/health/" : String) ∉ ["/health", "/version", "/error"] ∧
    dispatch ⟨"GET", "/health/", "", []⟩ routes [] = .ran .health ∧
    (handle (startup ⟨none, none⟩) ⟨"GET", "/health/", "", []⟩).status = 200 := by
  decide

/-- C5, amended: a request whose path matches none of `/health`, `/version` and `/error`,
letter case ignored and one trailing slash allowed, runs no handler and is answered with
status 404, whatever its method. -/
theorem undefined_path_not_found (cfg : Config) (req : Request)
    (h : ∀ r ∈ routes, matchPath r.path req.path = false) :
    dispatch req routes [] = .unhandled ∧
    (∀ r : Route, dispatch req routes [] ≠ .ran r) ∧
    handle cfg req = .notFound ∧
    (handle cfg req).status = 404 := by
  have hd : dispatch req routes [] = .unhandled := by
    rw [dispatch_unmatched req [] routes h]
    simp
  refine ⟨hd, ?_, ?_, ?_⟩
  · intro r hr
    rw [hd] at hr
    cases hr
  · simp [handle, process, hd, respond]
  · simp [handle, process, hd, respond, Response.status]

/-- C5, witness: `POST /nope` and its 404. -/
theorem undefined_path_not_found_witness :
    (∀ r ∈ routes, matchPath r.path "/nope" = false) ∧
    handle (startup ⟨none, none⟩) ⟨"POST", "/nope", "x=1", []⟩ = .notFound :=
  ⟨by decide,
    (undefined_path_not_found (startup ⟨none, none⟩) ⟨"POST", "/nope", "x=1", []⟩
      (by decide)).2.2.1⟩

/-! ## The listener -/

/-- C6: with `PORT` set to the decimal numeral of a port number `p`, from 1 to 65535, the
service calls `listen` with that numeral and host `0.0.0.0`, and the server listens on
host `0.0.0.0`, port `p`; with `PORT` unset it calls `listen` with the number 5100 and
host `0.0.0.0`, and the server listens on host `0.0.0.0`, port 5100. -/
theorem listen_port (p : Nat) (v : Option String) (h1 : 1 ≤ p) (h2 : p ≤ 65535) :
    listenCall (startup ⟨some (toString p), v⟩) = ⟨.str (toString p), "0.0.0.0"⟩ ∧
    listen (listenCall (startup ⟨some (toString p), v⟩)) = .tcp "0.0.0.0" p ∧
    listenCall (startup ⟨none, v⟩) = ⟨.num 5100, "0.0.0.0"⟩ ∧
    listen (listenCall (startup ⟨none, v⟩)) = .tcp "0.0.0.0" 5100 := by
  have hp : PORT ⟨some (toString p), v⟩ = .str (toString p) :=
    PORT_set _ v (toString_ne_empty p)
  have hc : listenCall (startup ⟨some (toString p), v⟩) = ⟨.str (toString p), "0.0.0.0"⟩ := by
    simp [listenCall, startup, hp]
  refine ⟨hc, ?_, rfl, rfl⟩
  obtain ⟨pre, e, hne, hall, hval⟩ := toString_digits p
  rw [hc, e]
  have := listen_digits pre "0.0.0.0" hne hall (by omega) (by omega)
  rw [this, hval]

/-- C6, witness: `PORT=8080`. -/
theorem listen_port_witness :
    1 ≤ 8080 ∧ 8080 ≤ 65535 ∧
    listen (listenCall (startup ⟨some (toString 8080), none⟩)) = .tcp "0.0.0.0" 8080 :=
  ⟨by decide, by decide, (listen_port 8080 none (by decide) (by decide)).2.1⟩

/-- C7, counterexample: with `PORT=abc`, which is no numeral, the port argument of
`listen` is the string `abc`, not 5100. -/
theorem listen_non_numeric_counterexample :
    decimalValue? "abc" = none ∧
    (listenCall (startup ⟨some "abc", none⟩)).port = .str "abc" ∧
    (listenCall (startup ⟨some "abc", none⟩)).port ≠ .num 5100 ∧
    (listenCall (startup ⟨some "abc", none⟩)).port.portNumber? ≠ some 5100 := by
  decide

/-- C7, amended: when `PORT` is set to a non-empty string, numeric or not, the port
argument of `listen` is that string itself; the service does not replace it by 5100. -/
theorem listen_port_string (s : String) (v : Option String) (hs : s ≠ "") :
    (listenCall (startup ⟨some s, v⟩)).port = .str s ∧
    (listenCall (startup ⟨some s, v⟩)).port ≠ .num 5100 := by
  have hp : PORT ⟨some s, v⟩ = .str s := PORT_set s v hs
  simp [listenCall, startup, hp]

/-- C7, witness: `PORT=not-a-port`. -/
theorem listen_port_string_witness :
    ("not-a-port" : String) ≠ "" ∧ decimalValue? "not-a-port" = none ∧
    (listenCall (startup ⟨some "not-a-port", none⟩)).port = .str "not-a-port" :=
  ⟨by decide, by decide, (listen_port_string "not-a-port" none (by decide)).1⟩

/-! ## Empty variables -/

/-- C9: an environment variable set to the empty string acts as an unset one: with
`APP_VERSION=""` the version constant is `v1.0.0` and `/version` reports it, with
`PORT=""` the port argument of `listen` is 5100, the configuration is the one of the
unset variable, and in every environment the version is a non-empty string and the port
is 5100 or a non-empty string. -/
theorem empty_variable_is_unset (p v : Option String) (query : String)
    (headers : List (String × String)) :
    VERSION ⟨p, some ""⟩ = .str "v1.0.0" ∧
    handle (startup ⟨p, some ""⟩) ⟨"GET", "/version", query, headers⟩
      = .json 200 (versionBodyText "v1.0.0") ∧
    (listenCall (startup ⟨some "", v⟩)).port = .num 5100 ∧
    startup ⟨p, some ""⟩ = startup ⟨p, none⟩ ∧
    startup ⟨some "", v⟩ = startup ⟨none, v⟩ ∧
    (∀ env : Env, ∃ V, VERSION env = .str V ∧ V ≠ "") ∧
    (∀ env : Env, PORT env = .num 5100 ∨ ∃ s, PORT env = .str s ∧ s ≠ "") := by
  refine ⟨rfl, rfl, rfl, rfl, rfl, VERSION_str, ?_⟩
  intro env
  obtain ⟨q, w⟩ := env
  cases q with
  | none => exact Or.inl rfl
  | some s =>
    by_cases hs : s = ""
    · subst hs
      exact Or.inl rfl
    · exact Or.inr ⟨s, PORT_set s w hs, hs⟩

end DevopsDemo
